import Mathlib

/-!
Verification of the schema-conformance checker of `strictly_typed_pandas`.

The repository's Python package (the `DataSet` class and its validation
logic) is not present in the source tree; only its CI configuration and
documentation notebooks are.  Every definition below whose doc comment
starts with `Modelled from the spec:` is therefore a faithful embedding of
the behaviour described by the specification (spec.md) and demonstrated in
the notebooks, rather than a transcription of Python source.
-/

/-- Modelled from the spec: semantic type tags for schema columns.  The
spec's data model names primitive tags (`int`, `str`), numeric-width
specific tags (`np.int64`, `np.float64`), a pandas string dtype, and an
"any"/wildcard tag (`typing.Any`), as exercised in the notebooks. -/
inductive SType where
  | tInt
  | tStr
  | tInt64
  | tFloat64
  | tStringDtype
  | tAny
  deriving DecidableEq, Repr, Fintype

/-- Modelled from the spec: the configured equivalence class of "two
different native numeric encodings that represent the same kind of
number" — the native `int` tag and the width-specific `int64` tag denote
the same kind of number. -/
def sameNumericKind : SType → SType → Bool
  | SType.tInt, SType.tInt64 => true
  | SType.tInt64, SType.tInt => true
  | _, _ => false

/-- Modelled from the spec: the compatibility rule of validation step 2 —
exact match, or the declared type is the wildcard that always matches, or
declared and observed types are members of a configured equivalence
class. -/
def compatible (declared observed : SType) : Bool :=
  declared == observed || declared == SType.tAny || sameNumericKind declared observed

abbrev ColName := String

/-- Modelled from the spec: a schema is an ordered mapping from column
name to expected semantic type (no duplicate names). -/
abbrev Schema := List (ColName × SType)

/-- Modelled from the spec: a tabular object exposes the ordered set of
its column names with each column's observed element type, plus a row
count (used only by the empty-construction claim). -/
structure Table where
  cols : List (ColName × SType)
  nrows : Nat
  deriving DecidableEq, Repr

def schemaNames (s : Schema) : List ColName := s.map Prod.fst

def tableNames (t : Table) : List ColName := t.cols.map Prod.fst

/-- Look up the (first) type associated with a column name. -/
def lookupType (n : ColName) : List (ColName × SType) → Option SType
  | [] => none
  | (m, d) :: rest => if n = m then some d else lookupType n rest

/-- Boolean membership test on column-name lists. -/
def memName (n : ColName) : List ColName → Bool
  | [] => false
  | m :: rest => n = m || memName n rest

/-- Modelled from the spec: `missing = schema.columns − table.columns`
(validation step 1). -/
def missingColumns (s : Schema) (t : Table) : List ColName :=
  (schemaNames s).filter (fun n => ! memName n (tableNames t))

/-- Modelled from the spec: `extra = table.columns − schema.columns`
(validation step 1). -/
def extraColumns (s : Schema) (t : Table) : List ColName :=
  (tableNames t).filter (fun n => ! memName n (schemaNames s))

/-- Modelled from the spec: validation step 2 collects, without
short-circuiting, every column present in both schema and table whose
observed element type is incompatible with the declared one, recording
the column name, the expected type and the observed type. -/
def typeMismatches (s : Schema) (t : Table) : List (ColName × SType × SType) :=
  s.filterMap (fun p =>
    match lookupType p.1 t.cols with
    | none => none
    | some o => if compatible p.2 o then none else some (p.1, p.2, o))

/-- Modelled from the spec: the validation-error taxonomy — a column
mismatch carries the missing and extra column sets, a type mismatch
enumerates each offending column with expected and observed type. -/
inductive ValidationError where
  | columnMismatch (missing extra : List ColName)
  | typeMismatch (mismatches : List (ColName × SType × SType))
  deriving DecidableEq, Repr

/-- Modelled from the spec: the schema validator
`validate(schema, table) -> Result<(), ValidationError>`.  Step 1 fails
with a column-mismatch error listing both the missing and the extra sets
when either is non-empty; step 2 collects all type mismatches and step 3
fails with a type-mismatch error enumerating them; step 4 succeeds. -/
def validate (s : Schema) (t : Table) : Except ValidationError Unit :=
  if (missingColumns s t).isEmpty && (extraColumns s t).isEmpty then
    match typeMismatches s t with
    | [] => Except.ok ()
    | ms => Except.error (ValidationError.typeMismatch ms)
  else
    Except.error (ValidationError.columnMismatch (missingColumns s t) (extraColumns s t))

/-- Modelled from the spec: a Typed Dataset is a tabular object tagged
with exactly one schema. -/
structure DataSet where
  schema : Schema
  table : Table
  deriving DecidableEq, Repr

/-- Modelled from the spec: construct-with-validation — construction
either fully succeeds, producing an object, or fully fails with the
validation error; no partial construction is exposed. -/
def mkDataSet (s : Schema) (t : Table) : Except ValidationError DataSet :=
  match validate s t with
  | Except.ok _ => Except.ok ⟨s, t⟩
  | Except.error e => Except.error e

theorem memName_iff (n : ColName) (l : List ColName) : memName n l = true ↔ n ∈ l := by
  induction l with
  | nil => simp [memName]
  | cons m rest ih => simp [memName, ih, List.mem_cons]

theorem lookupType_isSome_iff (n : ColName) (l : List (ColName × SType)) :
    (∃ o, lookupType n l = some o) ↔ n ∈ l.map Prod.fst := by
  induction l with
  | nil => simp [lookupType]
  | cons p rest ih =>
    by_cases h : n = p.1
    · subst h
      simp [lookupType]
    · simp only [lookupType, List.map_cons, List.mem_cons]
      rw [if_neg h]
      simp [ih, h]

theorem memName_eq_false_iff (n : ColName) (l : List ColName) :
    memName n l = false ↔ n ∉ l := by
  rw [← memName_iff]
  simp

theorem mem_missingColumns (s : Schema) (t : Table) (c : ColName) :
    c ∈ missingColumns s t ↔ (c ∈ schemaNames s ∧ c ∉ tableNames t) := by
  simp [missingColumns, List.mem_filter, memName_eq_false_iff]

theorem mem_extraColumns (s : Schema) (t : Table) (c : ColName) :
    c ∈ extraColumns s t ↔ (c ∈ tableNames t ∧ c ∉ schemaNames s) := by
  simp [extraColumns, List.mem_filter, memName_eq_false_iff]

theorem missingColumns_eq_nil (s : Schema) (t : Table)
    (h : ∀ n ∈ schemaNames s, n ∈ tableNames t) : missingColumns s t = [] := by
  rw [missingColumns, List.filter_eq_nil_iff]
  intro n hn
  simp [memName_iff, h n hn]

theorem extraColumns_eq_nil (s : Schema) (t : Table)
    (h : ∀ n ∈ tableNames t, n ∈ schemaNames s) : extraColumns s t = [] := by
  rw [extraColumns, List.filter_eq_nil_iff]
  intro n hn
  simp [memName_iff, h n hn]

theorem typeMismatches_eq_nil (s : Schema) (t : Table)
    (h : ∀ p ∈ s, ∀ o, lookupType p.1 t.cols = some o → compatible p.2 o = true) :
    typeMismatches s t = [] := by
  rw [typeMismatches, List.filterMap_eq_nil_iff]
  intro p hp
  cases hlk : lookupType p.1 t.cols with
  | none => simp [hlk]
  | some o => simp [hlk, h p hp o hlk]

theorem mem_typeMismatches (s : Schema) (t : Table) (n : ColName) (d o : SType) :
    (n, d, o) ∈ typeMismatches s t ↔
      ((n, d) ∈ s ∧ lookupType n t.cols = some o ∧ compatible d o = false) := by
  rw [typeMismatches, List.mem_filterMap]
  constructor
  · rintro ⟨⟨pn, pd⟩, hp, hf⟩
    cases hlk : lookupType pn t.cols with
    | none => rw [hlk] at hf; simp at hf
    | some o' =>
      rw [hlk] at hf
      by_cases hc : compatible pd o' = true
      · simp [hc] at hf
      · simp only [Bool.not_eq_true] at hc
        simp [hc] at hf
        obtain ⟨h1, h2, h3⟩ := hf
        subst h1; subst h2; subst h3
        exact ⟨hp, hlk, hc⟩
  · rintro ⟨hmem, hlk, hc⟩
    exact ⟨(n, d), hmem, by simp [hlk, hc]⟩

theorem validate_eq_ok (s : Schema) (t : Table)
    (h1 : missingColumns s t = []) (h2 : extraColumns s t = [])
    (h3 : typeMismatches s t = []) : validate s t = Except.ok () := by
  simp [validate, h1, h2, h3]

theorem validate_eq_typeMismatchError (s : Schema) (t : Table)
    (h1 : missingColumns s t = []) (h2 : extraColumns s t = [])
    (h3 : typeMismatches s t ≠ []) :
    validate s t = Except.error (ValidationError.typeMismatch (typeMismatches s t)) := by
  cases hms : typeMismatches s t with
  | nil => exact absurd hms h3
  | cons a ms => simp [validate, h1, h2, hms]

theorem validate_eq_columnMismatchError (s : Schema) (t : Table)
    (h : missingColumns s t ≠ [] ∨ extraColumns s t ≠ []) :
    validate s t =
      Except.error (ValidationError.columnMismatch (missingColumns s t) (extraColumns s t)) := by
  have hb : ((missingColumns s t).isEmpty && (extraColumns s t).isEmpty) = false := by
    rcases h with h | h <;> simp [List.isEmpty_iff, h]
  unfold validate
  rw [hb]
  simp

theorem validate_ok_of_conforming (s : Schema) (t : Table)
    (hnames : tableNames t = schemaNames s)
    (hcompat : ∀ p ∈ s, ∀ o, lookupType p.1 t.cols = some o → compatible p.2 o = true) :
    validate s t = Except.ok () ∧ mkDataSet s t = Except.ok ⟨s, t⟩ := by
  have h1 : missingColumns s t = [] :=
    missingColumns_eq_nil s t (fun n hn => by rw [hnames]; exact hn)
  have h2 : extraColumns s t = [] :=
    extraColumns_eq_nil s t (fun n hn => by rw [← hnames]; exact hn)
  have h3 : typeMismatches s t = [] := typeMismatches_eq_nil s t hcompat
  have hv := validate_eq_ok s t h1 h2 h3
  exact ⟨hv, by simp [mkDataSet, hv]⟩

/-- C1: for every schema and every table whose ordered column set equals the
schema's key set and whose per-column observed element types are each
compatible with the declared types, validation succeeds: a Typed Dataset is
constructed and no error is raised. -/
theorem validate_succeeds_on_conforming (s : Schema) (t : Table)
    (hnames : tableNames t = schemaNames s)
    (hcompat : ∀ p ∈ s, ∀ o, lookupType p.1 t.cols = some o → compatible p.2 o = true) :
    validate s t = Except.ok () ∧ mkDataSet s t = Except.ok ⟨s, t⟩ :=
  validate_ok_of_conforming s t hnames hcompat

/-- Witness for C1 at the spec's example: schema `{id: integer, name: string}`
against a table with those columns and exactly those observed types. -/
theorem validate_succeeds_on_conforming_witness :
    (tableNames ⟨[("id", SType.tInt), ("name", SType.tStr)], 3⟩ =
      schemaNames [("id", SType.tInt), ("name", SType.tStr)]) ∧
    (∀ p ∈ ([("id", SType.tInt), ("name", SType.tStr)] : Schema), ∀ o,
      lookupType p.1 (Table.mk [("id", SType.tInt), ("name", SType.tStr)] 3).cols = some o →
        compatible p.2 o = true) ∧
    validate [("id", SType.tInt), ("name", SType.tStr)]
      ⟨[("id", SType.tInt), ("name", SType.tStr)], 3⟩ = Except.ok () :=
  ⟨by decide, by decide,
    (validate_succeeds_on_conforming _ _ (by decide) (by decide)).1⟩

/-- C2: for every schema and table whose column sets differ — a missing
declared column or an extra undeclared column — validation fails with a
column-mismatch error that lists both the set of missing columns and the set
of extra columns. -/
theorem validate_fails_on_column_diff (s : Schema) (t : Table)
    (h : (∃ c ∈ schemaNames s, c ∉ tableNames t) ∨ (∃ c ∈ tableNames t, c ∉ schemaNames s)) :
    validate s t =
      Except.error (ValidationError.columnMismatch (missingColumns s t) (extraColumns s t)) ∧
    (∀ c, c ∈ missingColumns s t ↔ (c ∈ schemaNames s ∧ c ∉ tableNames t)) ∧
    (∀ c, c ∈ extraColumns s t ↔ (c ∈ tableNames t ∧ c ∉ schemaNames s)) := by
  refine ⟨?_, fun c => mem_missingColumns s t c, fun c => mem_extraColumns s t c⟩
  apply validate_eq_columnMismatchError
  rcases h with ⟨c, hc1, hc2⟩ | ⟨c, hc1, hc2⟩
  · left
    intro hnil
    have hm : c ∈ missingColumns s t := (mem_missingColumns s t c).2 ⟨hc1, hc2⟩
    rw [hnil] at hm
    simp at hm
  · right
    intro hnil
    have hm : c ∈ extraColumns s t := (mem_extraColumns s t c).2 ⟨hc1, hc2⟩
    rw [hnil] at hm
    simp at hm

/-- Witness for C2 at the notebook's example: schema `{id: int, name: str}`
against a table holding only the `id` column; the error lists `name` as
missing and nothing as extra. -/
theorem validate_fails_on_column_diff_witness :
    ((∃ c ∈ schemaNames [("id", SType.tInt), ("name", SType.tStr)],
        c ∉ tableNames ⟨[("id", SType.tInt)], 3⟩) ∨
      (∃ c ∈ tableNames ⟨[("id", SType.tInt)], 3⟩,
        c ∉ schemaNames [("id", SType.tInt), ("name", SType.tStr)])) ∧
    validate [("id", SType.tInt), ("name", SType.tStr)] ⟨[("id", SType.tInt)], 3⟩ =
      Except.error (ValidationError.columnMismatch ["name"] []) :=
  ⟨by decide,
    by
      have h := (validate_fails_on_column_diff
        [("id", SType.tInt), ("name", SType.tStr)] ⟨[("id", SType.tInt)], 3⟩
        (by decide)).1
      rw [h]
      rfl⟩

/-- C3: for every schema and table with equal column sets where at least one
column's observed element type is incompatible with its declared type,
validation fails with a type-mismatch error, and for each offending column
the error names the column, the expected (declared) type, and the observed
type. -/
theorem validate_fails_on_type_mismatch (s : Schema) (t : Table)
    (hsub1 : ∀ n ∈ tableNames t, n ∈ schemaNames s)
    (hsub2 : ∀ n ∈ schemaNames s, n ∈ tableNames t)
    (hbad : ∃ p ∈ s, ∃ o, lookupType p.1 t.cols = some o ∧ compatible p.2 o = false) :
    validate s t = Except.error (ValidationError.typeMismatch (typeMismatches s t)) ∧
    (∀ n d o, (n, d, o) ∈ typeMismatches s t ↔
      ((n, d) ∈ s ∧ lookupType n t.cols = some o ∧ compatible d o = false)) := by
  have h3 : typeMismatches s t ≠ [] := by
    rcases hbad with ⟨⟨n, d⟩, hp, o, hlk, hc⟩
    intro hnil
    have hm : (n, d, o) ∈ typeMismatches s t := (mem_typeMismatches s t n d o).2 ⟨hp, hlk, hc⟩
    rw [hnil] at hm
    simp at hm
  exact ⟨validate_eq_typeMismatchError s t (missingColumns_eq_nil s t hsub2)
      (extraColumns_eq_nil s t hsub1) h3,
    fun n d o => mem_typeMismatches s t n d o⟩

/-- Witness for C3 at the notebook's example: schema `{id: int, name: str}`
against a table whose `name` column holds integers; the error enumerates
`name` with expected `str` and observed `int`. -/
theorem validate_fails_on_type_mismatch_witness :
    (∀ n ∈ tableNames ⟨[("id", SType.tInt), ("name", SType.tInt)], 3⟩,
      n ∈ schemaNames [("id", SType.tInt), ("name", SType.tStr)]) ∧
    (∀ n ∈ schemaNames [("id", SType.tInt), ("name", SType.tStr)],
      n ∈ tableNames ⟨[("id", SType.tInt), ("name", SType.tInt)], 3⟩) ∧
    (∃ p ∈ ([("id", SType.tInt), ("name", SType.tStr)] : Schema), ∃ o,
      lookupType p.1 (Table.mk [("id", SType.tInt), ("name", SType.tInt)] 3).cols = some o ∧
        compatible p.2 o = false) ∧
    validate [("id", SType.tInt), ("name", SType.tStr)]
        ⟨[("id", SType.tInt), ("name", SType.tInt)], 3⟩ =
      Except.error (ValidationError.typeMismatch [("name", SType.tStr, SType.tInt)]) :=
  ⟨by decide, by decide, by decide,
    by
      have h := (validate_fails_on_type_mismatch
        [("id", SType.tInt), ("name", SType.tStr)]
        ⟨[("id", SType.tInt), ("name", SType.tInt)], 3⟩
        (by decide) (by decide) (by decide)).1
      rw [h]
      rfl⟩

/-- C4: type checking does not stop at the first incompatible column — when a
table has two or more type-incompatible columns, the single resulting error
reports every offending column, not just the first one found. -/
theorem validate_reports_all_mismatches (s : Schema) (t : Table)
    (hsub1 : ∀ n ∈ tableNames t, n ∈ schemaNames s)
    (hsub2 : ∀ n ∈ schemaNames s, n ∈ tableNames t)
    (n1 n2 : ColName) (d1 o1 d2 o2 : SType) (hne : n1 ≠ n2)
    (hm1 : (n1, d1) ∈ s ∧ lookupType n1 t.cols = some o1 ∧ compatible d1 o1 = false)
    (hm2 : (n2, d2) ∈ s ∧ lookupType n2 t.cols = some o2 ∧ compatible d2 o2 = false) :
    ∃ ms, validate s t = Except.error (ValidationError.typeMismatch ms) ∧
      (n1, d1, o1) ∈ ms ∧ (n2, d2, o2) ∈ ms ∧
      (∀ n d o, ((n, d) ∈ s ∧ lookupType n t.cols = some o ∧ compatible d o = false) →
        (n, d, o) ∈ ms) := by
  have hmem1 : (n1, d1, o1) ∈ typeMismatches s t := (mem_typeMismatches s t n1 d1 o1).2 hm1
  have h3 : typeMismatches s t ≠ [] := by
    intro hnil
    rw [hnil] at hmem1
    simp at hmem1
  exact ⟨typeMismatches s t,
    validate_eq_typeMismatchError s t (missingColumns_eq_nil s t hsub2)
      (extraColumns_eq_nil s t hsub1) h3,
    hmem1, (mem_typeMismatches s t n2 d2 o2).2 hm2,
    fun n d o hm => (mem_typeMismatches s t n d o).2 hm⟩

/-- Witness for C4: a table whose `id` and `name` columns are both
incompatible with their declared types; both columns appear in the single
reported mismatch list. -/
theorem validate_reports_all_mismatches_witness :
    (∀ n ∈ tableNames ⟨[("id", SType.tInt), ("name", SType.tStr)], 3⟩,
      n ∈ schemaNames [("id", SType.tStr), ("name", SType.tInt64)]) ∧
    (∀ n ∈ schemaNames [("id", SType.tStr), ("name", SType.tInt64)],
      n ∈ tableNames ⟨[("id", SType.tInt), ("name", SType.tStr)], 3⟩) ∧
    ("id" ≠ "name") ∧
    (("id", SType.tStr) ∈ ([("id", SType.tStr), ("name", SType.tInt64)] : Schema) ∧
      lookupType "id" (Table.mk [("id", SType.tInt), ("name", SType.tStr)] 3).cols =
        some SType.tInt ∧ compatible SType.tStr SType.tInt = false) ∧
    (("name", SType.tInt64) ∈ ([("id", SType.tStr), ("name", SType.tInt64)] : Schema) ∧
      lookupType "name" (Table.mk [("id", SType.tInt), ("name", SType.tStr)] 3).cols =
        some SType.tStr ∧ compatible SType.tInt64 SType.tStr = false) ∧
    (∃ ms, validate [("id", SType.tStr), ("name", SType.tInt64)]
        ⟨[("id", SType.tInt), ("name", SType.tStr)], 3⟩ =
        Except.error (ValidationError.typeMismatch ms) ∧
      ("id", SType.tStr, SType.tInt) ∈ ms ∧ ("name", SType.tInt64, SType.tStr) ∈ ms) :=
  ⟨by decide, by decide, by decide, by decide, by decide,
    by
      obtain ⟨ms, hv, h1, h2, _⟩ := validate_reports_all_mismatches
        [("id", SType.tStr), ("name", SType.tInt64)]
        ⟨[("id", SType.tInt), ("name", SType.tStr)], 3⟩
        (by decide) (by decide) "id" "name"
        SType.tStr SType.tInt SType.tInt64 SType.tStr
        (by decide) (by decide) (by decide)
      exact ⟨ms, hv, h1, h2⟩⟩

theorem lookupType_mem (n : ColName) (l : List (ColName × SType)) (d : SType)
    (h : lookupType n l = some d) : (n, d) ∈ l := by
  induction l with
  | nil => simp [lookupType] at h
  | cons p rest ih =>
    obtain ⟨m, d'⟩ := p
    simp only [lookupType] at h
    by_cases hnm : n = m
    · rw [if_pos hnm] at h
      injection h with h
      subst hnm
      subst h
      exact List.mem_cons_self _ _
    · rw [if_neg hnm] at h
      exact List.mem_cons_of_mem _ (ih h)

theorem lookupType_of_mem_nodup (l : List (ColName × SType))
    (hnd : (l.map Prod.fst).Nodup) (n : ColName) (d : SType)
    (h : (n, d) ∈ l) : lookupType n l = some d := by
  induction l with
  | nil => simp at h
  | cons p rest ih =>
    obtain ⟨m, d'⟩ := p
    simp only [List.map_cons, List.nodup_cons] at hnd
    obtain ⟨hm, hrest⟩ := hnd
    rcases List.mem_cons.1 h with heq | hmem
    · simp only [Prod.mk.injEq] at heq
      obtain ⟨rfl, rfl⟩ := heq
      simp [lookupType]
    · have hn : n ≠ m := by
        intro hnm
        subst hnm
        exact hm (List.mem_map.2 ⟨(n, d), hmem, rfl⟩)
      simp only [lookupType]
      rw [if_neg hn]
      exact ih hrest hmem

/-- Modelled from the spec: the error raised when schema composition finds a
column name bound to two different declared types in the two schemas. -/
inductive SchemaConflictError where
  | conflict (col : ColName) (t1 t2 : SType)
  deriving DecidableEq, Repr

/-- Modelled from the spec: the first conflicting column definition between
two schemas, if any — a shared name whose two declared types differ. -/
def findConflict (a b : Schema) : Option (ColName × SType × SType) :=
  (a.filterMap (fun p =>
    match lookupType p.1 b with
    | none => none
    | some t2 => if p.2 = t2 then none else some (p.1, p.2, t2))).head?

/-- Modelled from the spec: composition of two schemas — the union of their
column sets; if a name appears in both with different declared types,
composition fails with a conflicting-column-definition error naming the
column and the two conflicting declared types. -/
def composeSchemas (a b : Schema) : Except SchemaConflictError Schema :=
  match findConflict a b with
  | some (n, t1, t2) => Except.error (SchemaConflictError.conflict n t1 t2)
  | none => Except.ok (a ++ b.filter (fun p => ! memName p.1 (schemaNames a)))

/-- C5: composing two schemas yields the union of their column sets when
every shared column name maps to the identical declared type; if some shared
name maps to different declared types, composition fails with a
schema-conflict error naming that column and the two conflicting declared
types, and no composed schema is produced. -/
theorem composeSchemas_spec (a b : Schema) (hb : (schemaNames b).Nodup) :
    ((∀ p ∈ a, ∀ q ∈ b, p.1 = q.1 → p.2 = q.2) →
      ∃ s, composeSchemas a b = Except.ok s ∧
        (∀ n, n ∈ schemaNames s ↔ (n ∈ schemaNames a ∨ n ∈ schemaNames b))) ∧
    ((∃ p ∈ a, ∃ q ∈ b, p.1 = q.1 ∧ p.2 ≠ q.2) →
      ∃ n t1 t2, (n, t1) ∈ a ∧ (n, t2) ∈ b ∧ t1 ≠ t2 ∧
        composeSchemas a b = Except.error (SchemaConflictError.conflict n t1 t2)) := by
  constructor
  · intro hok
    have hfc : findConflict a b = none := by
      rw [findConflict, List.head?_eq_none_iff, List.filterMap_eq_nil_iff]
      intro p hp
      cases hlk : lookupType p.1 b with
      | none => simp [hlk]
      | some t2 =>
        have hq : (p.1, t2) ∈ b := lookupType_mem p.1 b t2 hlk
        have := hok p hp (p.1, t2) hq rfl
        simp [hlk, this]
    refine ⟨a ++ b.filter (fun p => ! memName p.1 (schemaNames a)), ?_, ?_⟩
    · rw [composeSchemas, hfc]
    · intro n
      simp only [schemaNames, List.map_append, List.mem_append, List.mem_map,
        List.mem_filter]
      constructor
      · rintro (h | ⟨p, ⟨hpb, _⟩, hpn⟩)
        · exact Or.inl h
        · exact Or.inr ⟨p, hpb, hpn⟩
      · rintro (h | ⟨p, hpb, hpn⟩)
        · exact Or.inl h
        · by_cases ha : ∃ q ∈ a, q.1 = n
          · exact Or.inl ha
          · refine Or.inr ⟨p, ⟨hpb, ?_⟩, hpn⟩
            rw [Bool.not_eq_true', memName_eq_false_iff, hpn]
            simp only [schemaNames, List.mem_map]
            exact ha
  · intro hconf
    obtain ⟨⟨n, t1⟩, hpa, ⟨m, t2⟩, hqb, hnm, hne⟩ := hconf
    simp only at hnm hne
    subst hnm
    have hlk : lookupType n b = some t2 :=
      lookupType_of_mem_nodup b hb n t2 hqb
    have hmem : (n, t1, t2) ∈ a.filterMap (fun p =>
        match lookupType p.1 b with
        | none => none
        | some t2 => if p.2 = t2 then none else some (p.1, p.2, t2)) :=
      List.mem_filterMap.2 ⟨(n, t1), hpa, by simp [hlk, hne]⟩
    cases hfc : findConflict a b with
    | none =>
      exfalso
      rw [findConflict, List.head?_eq_none_iff] at hfc
      rw [hfc] at hmem
      simp at hmem
    | some x =>
      obtain ⟨xn, xt1, xt2⟩ := x
      have hxmem : (xn, xt1, xt2) ∈ a.filterMap (fun p =>
          match lookupType p.1 b with
          | none => none
          | some t2 => if p.2 = t2 then none else some (p.1, p.2, t2)) := by
        rw [findConflict] at hfc
        exact List.mem_of_mem_head? (by rw [hfc]; rfl)
      obtain ⟨⟨pn, pt⟩, hpa2, hpf⟩ := List.mem_filterMap.1 hxmem
      cases hlk2 : lookupType pn b with
      | none => rw [hlk2] at hpf; simp at hpf
      | some t2' =>
        rw [hlk2] at hpf
        by_cases heq : pt = t2'
        · simp [heq] at hpf
        · simp only [if_neg heq, Option.some.injEq, Prod.mk.injEq] at hpf
          obtain ⟨rfl, rfl, rfl⟩ := hpf
          refine ⟨pn, pt, t2', hpa2, lookupType_mem pn b t2' hlk2, heq, ?_⟩
          rw [composeSchemas, hfc]

/-- Witness for C5 at the notebook's merge example: `SchemaA = {id: int,
name: str}` and `SchemaB = {id: int, job: str}` share `id` at the identical
declared type, so composition succeeds with the union of the column sets. -/
theorem composeSchemas_spec_witness :
    (schemaNames [("id", SType.tInt), ("job", SType.tStr)]).Nodup ∧
    (∀ p ∈ ([("id", SType.tInt), ("name", SType.tStr)] : Schema),
      ∀ q ∈ ([("id", SType.tInt), ("job", SType.tStr)] : Schema),
        p.1 = q.1 → p.2 = q.2) ∧
    (∃ s, composeSchemas [("id", SType.tInt), ("name", SType.tStr)]
        [("id", SType.tInt), ("job", SType.tStr)] = Except.ok s ∧
      (∀ n, n ∈ schemaNames s ↔
        (n ∈ schemaNames [("id", SType.tInt), ("name", SType.tStr)] ∨
          n ∈ schemaNames [("id", SType.tInt), ("job", SType.tStr)]))) :=
  ⟨by decide, by decide,
    (composeSchemas_spec [("id", SType.tInt), ("name", SType.tStr)]
      [("id", SType.tInt), ("job", SType.tStr)] (by decide)).1 (by decide)⟩

/-- Modelled from the spec: the in-place column-mutation operations that the
validated interface disables (item assignment, attribute assignment,
loc/iloc assignment, inplace assign), per the getting-started notebook. -/
inductive MutationOp where
  | setItem (col : ColName)
  | setAttr (col : ColName)
  | locAssign (col : ColName)
  | ilocAssign (idx : Nat)
  | assignInplace (col : ColName)
  deriving DecidableEq, Repr

/-- Modelled from the spec: the error signalled when an in-place mutation is
attempted through the validated interface (`NotImplementedError` in the
notebook). -/
inductive MutationError where
  | notImplemented
  deriving DecidableEq, Repr

/-- Modelled from the spec: attempts to mutate columns in place are rejected
at the boundary — every disabled operation fails and never yields a new
object. -/
def mutateInPlace (ds : DataSet) (op : MutationOp) : Except MutationError DataSet :=
  match ds, op with
  | _, _ => Except.error MutationError.notImplemented

/-- Observable state of a Typed Dataset after an attempted in-place
mutation: the new object when the operation succeeded, the untouched
original otherwise. -/
def afterMutationAttempt (ds : DataSet) (op : MutationOp) : DataSet :=
  match mutateInPlace ds op with
  | Except.ok ds' => ds'
  | Except.error _ => ds

/-- C6: every in-place column-mutation attempt on a constructed Typed
Dataset through the validated interface is rejected with an error, and the
dataset's columns and dtypes are unchanged afterward. -/
theorem mutation_rejected_and_unchanged (ds : DataSet) (op : MutationOp) :
    mutateInPlace ds op = Except.error MutationError.notImplemented ∧
    afterMutationAttempt ds op = ds ∧
    (afterMutationAttempt ds op).table.cols = ds.table.cols := by
  refine ⟨rfl, ?_, ?_⟩ <;> simp [afterMutationAttempt, mutateInPlace]

theorem validate_ok_inv (s : Schema) (t : Table) (h : validate s t = Except.ok ()) :
    missingColumns s t = [] ∧ extraColumns s t = [] ∧ typeMismatches s t = [] := by
  by_cases hb : ((missingColumns s t).isEmpty && (extraColumns s t).isEmpty) = true
  · have hb' := hb
    simp only [Bool.and_eq_true, List.isEmpty_iff] at hb'
    unfold validate at h
    rw [if_pos hb] at h
    cases hms : typeMismatches s t with
    | nil => exact ⟨hb'.1, hb'.2, rfl⟩
    | cons x xs =>
      rw [hms] at h
      simp at h
  · unfold validate at h
    rw [if_neg hb] at h
    simp at h

theorem schema_subset_table_of_missing_nil (s : Schema) (t : Table)
    (h : missingColumns s t = []) : ∀ n ∈ schemaNames s, n ∈ tableNames t := by
  intro n hn
  by_contra hq
  have hm : n ∈ missingColumns s t := (mem_missingColumns s t n).2 ⟨hn, hq⟩
  rw [h] at hm
  simp at hm

theorem table_subset_schema_of_extra_nil (s : Schema) (t : Table)
    (h : extraColumns s t = []) : ∀ n ∈ tableNames t, n ∈ schemaNames s := by
  intro n hn
  by_contra hq
  have hm : n ∈ extraColumns s t := (mem_extraColumns s t n).2 ⟨hn, hq⟩
  rw [h] at hm
  simp at hm

/-- C7: every Typed Dataset that construction returns satisfies the
schema-conformance invariant — its column set equals the schema's key set
and each column's element type is compatible with the declared type — and
construction is atomic: it either fully succeeds with a conforming object or
fully fails with an error and no object. -/
theorem mkDataSet_invariant (s : Schema) (t : Table) :
    (∀ ds, mkDataSet s t = Except.ok ds →
      ds.schema = s ∧ ds.table = t ∧
      (∀ n, n ∈ tableNames ds.table ↔ n ∈ schemaNames ds.schema) ∧
      (∀ p ∈ ds.schema, ∃ o, lookupType p.1 ds.table.cols = some o ∧
        compatible p.2 o = true)) ∧
    ((∃ ds, mkDataSet s t = Except.ok ds) ∨ (∃ e, mkDataSet s t = Except.error e)) := by
  constructor
  · intro ds h
    unfold mkDataSet at h
    cases hv : validate s t with
    | error e => rw [hv] at h; simp at h
    | ok u =>
      cases u
      rw [hv] at h
      have hds : ds = ⟨s, t⟩ := by
        cases h
        rfl
      subst hds
      obtain ⟨h1, h2, h3⟩ := validate_ok_inv s t hv
      refine ⟨rfl, rfl, ?_, ?_⟩
      · intro n
        exact ⟨fun hn => table_subset_schema_of_extra_nil s t h2 n hn,
          fun hn => schema_subset_table_of_missing_nil s t h1 n hn⟩
      · intro p hp
        have hn : p.1 ∈ tableNames t := by
          apply schema_subset_table_of_missing_nil s t h1
          exact List.mem_map.2 ⟨p, hp, rfl⟩
        obtain ⟨o, ho⟩ := (lookupType_isSome_iff p.1 t.cols).2 hn
        refine ⟨o, ho, ?_⟩
        by_contra hc
        rw [Bool.not_eq_true] at hc
        have hm : (p.1, p.2, o) ∈ typeMismatches s t := by
          apply (mem_typeMismatches s t p.1 p.2 o).2
          exact ⟨by cases p; exact hp, ho, hc⟩
        rw [h3] at hm
        simp at hm
  · cases hmk : mkDataSet s t with
    | ok ds => exact Or.inl ⟨ds, rfl⟩
    | error e => exact Or.inr ⟨e, rfl⟩

/-- Witness for C7 at the spec's example schema and a conforming table. -/
theorem mkDataSet_invariant_witness :
    (mkDataSet [("id", SType.tInt), ("name", SType.tStr)]
      ⟨[("id", SType.tInt), ("name", SType.tStr)], 3⟩ =
      Except.ok ⟨[("id", SType.tInt), ("name", SType.tStr)],
        ⟨[("id", SType.tInt), ("name", SType.tStr)], 3⟩⟩) ∧
    ((DataSet.mk [("id", SType.tInt), ("name", SType.tStr)]
        ⟨[("id", SType.tInt), ("name", SType.tStr)], 3⟩).schema =
      [("id", SType.tInt), ("name", SType.tStr)] ∧
    (DataSet.mk [("id", SType.tInt), ("name", SType.tStr)]
        ⟨[("id", SType.tInt), ("name", SType.tStr)], 3⟩).table =
      ⟨[("id", SType.tInt), ("name", SType.tStr)], 3⟩ ∧
    (∀ n, n ∈ tableNames (DataSet.mk [("id", SType.tInt), ("name", SType.tStr)]
        ⟨[("id", SType.tInt), ("name", SType.tStr)], 3⟩).table ↔
      n ∈ schemaNames (DataSet.mk [("id", SType.tInt), ("name", SType.tStr)]
        ⟨[("id", SType.tInt), ("name", SType.tStr)], 3⟩).schema) ∧
    (∀ p ∈ (DataSet.mk [("id", SType.tInt), ("name", SType.tStr)]
        ⟨[("id", SType.tInt), ("name", SType.tStr)], 3⟩).schema,
      ∃ o, lookupType p.1 (DataSet.mk [("id", SType.tInt), ("name", SType.tStr)]
        ⟨[("id", SType.tInt), ("name", SType.tStr)], 3⟩).table.cols = some o ∧
        compatible p.2 o = true)) :=
  ⟨rfl,
    (mkDataSet_invariant [("id", SType.tInt), ("name", SType.tStr)]
      ⟨[("id", SType.tInt), ("name", SType.tStr)], 3⟩).1 _ rfl⟩

/-- C8: a declared wildcard/"any" type tag is compatible with every observed
element type, so validation of a wildcard column succeeds regardless of the
observed type — no wildcard column ever appears among the collected type
mismatches. -/
theorem wildcard_always_compatible :
    (∀ o : SType, compatible SType.tAny o = true) ∧
    (∀ (s : Schema) (t : Table) (x : ColName × SType × SType),
      x ∈ typeMismatches s t → x.2.1 ≠ SType.tAny) := by
  constructor
  · intro o
    cases o <;> rfl
  · rintro s t ⟨n, d, o⟩ hx
    obtain ⟨_, _, hc⟩ := (mem_typeMismatches s t n d o).1 hx
    simp only
    intro hd
    subst hd
    rw [show compatible SType.tAny o = true from by cases o <;> rfl] at hc
    simp at hc

/-- Witness for C8: a concrete mismatch list contains a non-wildcard
offending column, and the wildcard itself is compatible with a string
observation. -/
theorem wildcard_always_compatible_witness :
    (("x", SType.tInt, SType.tStr) ∈
      typeMismatches [("x", SType.tInt)] ⟨[("x", SType.tStr)], 0⟩) ∧
    ("x", SType.tInt, SType.tStr).2.1 ≠ SType.tAny ∧
    compatible SType.tAny SType.tStr = true :=
  ⟨by decide,
    wildcard_always_compatible.2 [("x", SType.tInt)] ⟨[("x", SType.tStr)], 0⟩
      ("x", SType.tInt, SType.tStr) (by decide),
    wildcard_always_compatible.1 SType.tStr⟩

/-- Modelled from the spec: a store of tabular objects.  References into the
store stand for the shared underlying storage of dataframes, so that
constructing without copying and the unchecked escape-hatch mutation can be
expressed. -/
structure Heap where
  tables : List Table
  deriving DecidableEq, Repr

def Heap.read (h : Heap) (r : Nat) : Option Table := h.tables[r]?

/-- Modelled from the spec: the unchecked escape hatch — mutating the
underlying storage in place, at the caller's own risk; it is total and
raises no error. -/
def Heap.writeRaw (h : Heap) (r : Nat) (t : Table) : Heap := ⟨h.tables.set r t⟩

/-- Modelled from the spec: a Typed Dataset handle tagged with its schema
and referencing storage in the heap. -/
structure DataSetHandle where
  schema : Schema
  ref : Nat
  deriving DecidableEq, Repr

/-- Columns a Typed Dataset handle currently observes through its
reference into the shared storage. -/
def DataSetHandle.view (d : DataSetHandle) (h : Heap) : Option Table := h.read d.ref

/-- Modelled from the spec: reconstructing a Typed Dataset from an existing
tabular object — the input is validated, and the underlying data is not
copied unless copying is explicitly requested: without copy the new handle
references the very storage of the original. -/
def mkDataSetFromRef (h : Heap) (s : Schema) (r : Nat) (copy : Bool) :
    Except ValidationError (Heap × DataSetHandle) :=
  match h.read r with
  | none => Except.error (ValidationError.columnMismatch (schemaNames s) [])
  | some t =>
    match validate s t with
    | Except.error e => Except.error e
    | Except.ok _ =>
      if copy then Except.ok (⟨h.tables ++ [t]⟩, ⟨s, h.tables.length⟩)
      else Except.ok (h, ⟨s, r⟩)

/-- C9: constructing a Typed Dataset from an existing tabular object without
requesting a copy leaves the heap unchanged and returns a handle to the very
same storage; mutating the original through the unchecked escape hatch (a
total operation — no error is raised) therefore changes what the Typed
Dataset's handle observes. -/
theorem no_clone_shares_storage (h : Heap) (s : Schema) (r : Nat) (t t' : Table)
    (hr : h.read r = some t) (hv : validate s t = Except.ok ()) :
    mkDataSetFromRef h s r false = Except.ok (h, ⟨s, r⟩) ∧
    (DataSetHandle.mk s r).view h = some t ∧
    (DataSetHandle.mk s r).view (h.writeRaw r t') = some t' := by
  refine ⟨?_, hr, ?_⟩
  · simp [mkDataSetFromRef, hr, hv]
  · have hlt : r < h.tables.length := by
      by_contra hge
      push_neg at hge
      rw [Heap.read, List.getElem?_eq_none hge] at hr
      simp at hr
    rw [DataSetHandle.view, Heap.read, Heap.writeRaw]
    exact List.getElem?_set_self hlt

/-- Witness for C9: a one-table heap holding a conforming table; after the
escape-hatch write that turns the `name` column into integers, the handle
observes the mutated table. -/
theorem no_clone_shares_storage_witness :
    ((Heap.mk [⟨[("id", SType.tInt), ("name", SType.tStr)], 3⟩]).read 0 =
      some ⟨[("id", SType.tInt), ("name", SType.tStr)], 3⟩) ∧
    (validate [("id", SType.tInt), ("name", SType.tStr)]
      ⟨[("id", SType.tInt), ("name", SType.tStr)], 3⟩ = Except.ok ()) ∧
    (mkDataSetFromRef (Heap.mk [⟨[("id", SType.tInt), ("name", SType.tStr)], 3⟩])
        [("id", SType.tInt), ("name", SType.tStr)] 0 false =
      Except.ok (Heap.mk [⟨[("id", SType.tInt), ("name", SType.tStr)], 3⟩],
        ⟨[("id", SType.tInt), ("name", SType.tStr)], 0⟩)) ∧
    ((DataSetHandle.mk [("id", SType.tInt), ("name", SType.tStr)] 0).view
        ((Heap.mk [⟨[("id", SType.tInt), ("name", SType.tStr)], 3⟩]).writeRaw 0
          ⟨[("id", SType.tInt), ("name", SType.tInt)], 3⟩) =
      some ⟨[("id", SType.tInt), ("name", SType.tInt)], 3⟩) := by
  have h := no_clone_shares_storage
    (Heap.mk [⟨[("id", SType.tInt), ("name", SType.tStr)], 3⟩])
    [("id", SType.tInt), ("name", SType.tStr)] 0
    ⟨[("id", SType.tInt), ("name", SType.tStr)], 3⟩
    ⟨[("id", SType.tInt), ("name", SType.tInt)], 3⟩
    rfl rfl
  exact ⟨rfl, rfl, h.1, h.2.2⟩

/-- Modelled from the spec: constructing a Typed Dataset with no input data
(the notebook's `DataSet[Schema]()`) builds a zero-row table carrying the
schema's columns, each column with its declared element type. -/
def emptyTableOf (s : Schema) : Table := ⟨s, 0⟩

/-- Modelled from the spec: the no-argument Typed Dataset constructor —
validation of the synthesised empty table against the schema, as for any
other construction. -/
def mkEmptyDataSet (s : Schema) : Except ValidationError DataSet :=
  mkDataSet s (emptyTableOf s)

/-- C10: constructing a Typed Dataset with no input data succeeds for every
schema and yields an empty (zero-row) dataset whose column set and
per-column element types conform to that schema. -/
theorem emptyDataSet_succeeds (s : Schema) (hnd : (schemaNames s).Nodup) :
    mkEmptyDataSet s = Except.ok ⟨s, emptyTableOf s⟩ ∧
    (emptyTableOf s).nrows = 0 ∧
    tableNames (emptyTableOf s) = schemaNames s ∧
    (∀ p ∈ s, ∃ o, lookupType p.1 (emptyTableOf s).cols = some o ∧
      compatible p.2 o = true) := by
  have hlk : ∀ p ∈ s, lookupType p.1 (emptyTableOf s).cols = some p.2 := by
    intro p hp
    exact lookupType_of_mem_nodup s hnd p.1 p.2 (by cases p; exact hp)
  have hcompat : ∀ p ∈ s, ∀ o, lookupType p.1 (emptyTableOf s).cols = some o →
      compatible p.2 o = true := by
    intro p hp o ho
    rw [hlk p hp] at ho
    injection ho with ho
    subst ho
    simp [compatible]
  have h := validate_ok_of_conforming s (emptyTableOf s) rfl hcompat
  exact ⟨h.2, rfl, rfl, fun p hp => ⟨p.2, hlk p hp, by
    have := hcompat p hp p.2 (hlk p hp)
    exact this⟩⟩

/-- Witness for C10 at the getting-started schema `{id: int, name: str}`. -/
theorem emptyDataSet_succeeds_witness :
    (schemaNames [("id", SType.tInt), ("name", SType.tStr)]).Nodup ∧
    (mkEmptyDataSet [("id", SType.tInt), ("name", SType.tStr)] =
      Except.ok ⟨[("id", SType.tInt), ("name", SType.tStr)],
        emptyTableOf [("id", SType.tInt), ("name", SType.tStr)]⟩ ∧
    (emptyTableOf [("id", SType.tInt), ("name", SType.tStr)]).nrows = 0 ∧
    tableNames (emptyTableOf [("id", SType.tInt), ("name", SType.tStr)]) =
      schemaNames [("id", SType.tInt), ("name", SType.tStr)] ∧
    (∀ p ∈ ([("id", SType.tInt), ("name", SType.tStr)] : Schema),
      ∃ o, lookupType p.1 (emptyTableOf [("id", SType.tInt), ("name", SType.tStr)]).cols =
        some o ∧ compatible p.2 o = true)) :=
  ⟨by decide,
    emptyDataSet_succeeds [("id", SType.tInt), ("name", SType.tStr)] (by decide)⟩
